import Mathlib

/-!
Shallow embedding of the two core subsystems of the OpenCppCoverage repository:
the coverage filter manager (`CppCoverage/CoverageFilterManager.cpp`) and the
debug event loop (`CppCoverage/Debugger.cpp`).

External collaborators (the wildcard filter compiled from `CoverageSettings`,
the unified-diff filters produced by `FileFilter`, and the OS debugging
primitives together with the `IDebugEventsHandler` callbacks) are modelled as
opaque data carried by the structures: a filter is a pair of boolean
predicates, and a debug run is driven by a script of `DEBUG_EVENT` values in
which the handler's exception classification is recorded on the event itself.
Machine integers: `DWORD` values are modelled as `Nat`; the C++ conversions of
a `DWORD` to `int` (process exit codes, exception codes) go through `toInt32`,
which reduces modulo `2 ^ 32` and re-centres into the signed range.
-/

set_option linter.unusedVariables false
set_option maxHeartbeats 1600000

namespace CppCoverage

/-! ## Coverage filter manager: data model -/

/-- Wildcard pattern filter built by `WildcardCoverageFilter(settings)`; its
pattern compilation is out of scope, so it is carried as its two observable
predicates. -/
structure WildcardCoverageFilter where
  isModuleSelected : String → Bool
  isSourceFileSelected : String → Bool

/-- A unified-diff coverage filter (`FileFilter::UnifiedDiffCoverageFilter`).
Its diff parsing is out of scope; it is carried as its observable interface:
the two selection predicates and the unmatched-path report used by
`ComputeWarningMessageLines`. -/
structure UnifiedDiffCoverageFilter where
  isSourceFileSelected : String → Bool
  isLineSelected : String → Int → Bool
  getUnmatchedPaths : List String

/-- The coverage filter manager: one wildcard filter plus an ordered sequence
of unified-diff filters (`CoverageFilterManager.hpp` members
`wildcardCoverageFilter_` and `unifiedDiffCoverageFilters_`). -/
structure CoverageFilterManager where
  wildcardCoverageFilter : WildcardCoverageFilter
  unifiedDiffCoverageFilters : List UnifiedDiffCoverageFilter

/-- Embeds the anonymous-namespace helper `AnyOfOrTrueIfEmpty` of
`CoverageFilterManager.cpp`: `true` on an empty container, otherwise
`std::any_of`. -/
def AnyOfOrTrueIfEmpty {α : Type} (container : List α) (fct : α → Bool) : Bool :=
  if container.isEmpty then true else container.any fct

/-- Embeds the anonymous-namespace helper `GetExecutableLineOrPreviousOne` of
`CoverageFilterManager.cpp`. `executableLinesSet.lower_bound(lineNumber)` is
the first position of the ordered set holding an element not smaller than
`lineNumber`; the iterator arithmetic is rendered on the sorted list of the
set: the suffix from `lower_bound` is `dropWhile (< lineNumber)`, the iterator
being at `begin` means the `takeWhile (< lineNumber)` part is empty, and
`*(--it)` is the last element of that part. -/
def GetExecutableLineOrPreviousOne (lineNumber : Int) (executableLinesSet : Finset Int) :
    Option Int :=
  let sortedLines := executableLinesSet.sort (· ≤ ·)
  if (sortedLines.dropWhile fun x => decide (x < lineNumber)).head? = some lineNumber then
    some lineNumber
  else
    (sortedLines.takeWhile fun x => decide (x < lineNumber)).getLast?

/-- Embeds `CoverageFilterManager::IsModuleSelected`: the wildcard filter alone
decides module selection. -/
def CoverageFilterManager.IsModuleSelected (m : CoverageFilterManager)
    (filename : String) : Bool :=
  m.wildcardCoverageFilter.isModuleSelected filename

/-- Embeds `CoverageFilterManager::IsSourceFileSelected`: short-circuit `false`
on wildcard rejection, then `AnyOfOrTrueIfEmpty` over the diff filters. -/
def CoverageFilterManager.IsSourceFileSelected (m : CoverageFilterManager)
    (filename : String) : Bool :=
  if !m.wildcardCoverageFilter.isSourceFileSelected filename then false
  else
    AnyOfOrTrueIfEmpty m.unifiedDiffCoverageFilters fun filter =>
      filter.isSourceFileSelected filename

/-- Embeds `CoverageFilterManager::IsLineSelected`: `true` when no diff filter
is configured; otherwise resolve the line through
`GetExecutableLineOrPreviousOne`, reject when no line resolves, and apply
`AnyOfOrTrueIfEmpty` to the resolved line. -/
def CoverageFilterManager.IsLineSelected (m : CoverageFilterManager) (filename : String)
    (lineNumber : Int) (executableLinesSet : Finset Int) : Bool :=
  if m.unifiedDiffCoverageFilters.isEmpty then true
  else
    match GetExecutableLineOrPreviousOne lineNumber executableLinesSet with
    | none => false
    | some executableLineNumber =>
      AnyOfOrTrueIfEmpty m.unifiedDiffCoverageFilters fun filter =>
        filter.isLineSelected filename executableLineNumber

/-- Modelled from the spec: `Tools::GetSeparatorLine` (the `Tools` library is
not part of the shown sources); an opaque fixed separator line. -/
def GetSeparatorLine : String := "----------------------------------------------------"

/-- Modelled from the spec: `ProgramOptions::VerboseOption` (`ProgramOptions`
is not part of the shown sources); the verbose option name referenced by the
warning message. -/
def VerboseOption : String := "verbose"

/-- Embeds the path loop of the private
`CoverageFilterManager::ComputeWarningMessageLines(unmatchPaths, maxUnmatchPaths)`
overload: a counter `i` starts at 0 and for each path of the ordered set, when
`i++ >= maxUnmatchPaths` a tab-ellipsis line is emitted and the loop breaks,
otherwise a `"\t- " + path` line is emitted. -/
def AppendUnmatchPathLines : List String → Nat → Nat → List String
  | [], _, _ => []
  | path :: rest, i, maxUnmatchPaths =>
    if maxUnmatchPaths ≤ i then ["\t..."]
    else ("\t- " ++ path) :: AppendUnmatchPathLines rest (i + 1) maxUnmatchPaths

/-- The fixed four-line header pushed by the private
`ComputeWarningMessageLines` overload before the path lines. -/
def WarningHeaderLines (pathCount : Nat) : List String :=
  [GetSeparatorLine,
   "You have " ++ toString pathCount
     ++ " path(s) inside unified diff file(s) that were ignored",
   "because they did not match any path from pdb files.",
   "To see all files use --" ++ VerboseOption]

/-- Embeds the private overload
`CoverageFilterManager::ComputeWarningMessageLines(unmatchPaths, maxUnmatchPaths)`:
nothing on an empty set, otherwise the four header lines followed by the
iteration of `AppendUnmatchPathLines` over the set in its sorted order. -/
def ComputeWarningMessageLinesSet (unmatchPaths : Finset String)
    (maxUnmatchPaths : Nat) : List String :=
  if unmatchPaths = ∅ then []
  else
    WarningHeaderLines unmatchPaths.card
      ++ AppendUnmatchPathLines (unmatchPaths.sort (· ≤ ·)) 0 maxUnmatchPaths

/-- Embeds the public overload
`CoverageFilterManager::ComputeWarningMessageLines(maxUnmatchPaths)`: the
unmatched paths of every owned diff filter are accumulated into one ordered
set, which is passed to the private overload. -/
def CoverageFilterManager.ComputeWarningMessageLines (m : CoverageFilterManager)
    (maxUnmatchPaths : Nat) : List String :=
  let unmatchPaths : Finset String :=
    m.unifiedDiffCoverageFilters.foldl
      (fun acc filter => acc ∪ filter.getUnmatchedPaths.toFinset) ∅
  ComputeWarningMessageLinesSet unmatchPaths maxUnmatchPaths

/-- Reference definition of line selection, written from the specification's
words: with no diff filters configured the answer is `true`; otherwise, a line
that is a member of the executable-line set resolves to itself, a non-member
with some strictly smaller executable line resolves to the largest such line,
a non-member with no smaller executable line is rejected outright, and a
resolved line is accepted iff some diff filter accepts it. -/
def IsLineSelectedSpec (m : CoverageFilterManager) (filename : String)
    (lineNumber : Int) (executableLinesSet : Finset Int) : Bool :=
  if m.unifiedDiffCoverageFilters.isEmpty then true
  else if lineNumber ∈ executableLinesSet then
    m.unifiedDiffCoverageFilters.any fun filter =>
      filter.isLineSelected filename lineNumber
  else if h : (executableLinesSet.filter (· < lineNumber)).Nonempty then
    m.unifiedDiffCoverageFilters.any fun filter =>
      filter.isLineSelected filename ((executableLinesSet.filter (· < lineNumber)).max' h)
  else false

/-! ## Debugger: data model -/

/-- The two OS continuation directives the loop ever passes to
`ContinueDebugEvent`: `DBG_CONTINUE` (continue and consume the exception) and
`DBG_EXCEPTION_NOT_HANDLED` (continue and let the target's handler see it). -/
inductive ContinueType where
  | dbgContinue
  | dbgExceptionNotHandled
deriving DecidableEq

/-- Embeds `Debugger::ProcessStatus`: an optional exit code and an optional
continuation directive; default construction leaves both empty. -/
structure ProcessStatus where
  exitCode : Option Int := none
  continueStatus : Option ContinueType := none
deriving DecidableEq

/-- The mutable members of `Debugger` that the event loop maintains: the
process and thread handle tables (handles are opaque OS values, so the tables
are carried as their key sets) and the root process id. -/
structure DebuggerState where
  processHandles : Finset Nat
  threadHandles : Finset Nat
  rootProcessId : Option Nat
deriving DecidableEq

/-- The construction parameters of `Debugger`, all immutable for the lifetime
of the loop. -/
structure Debugger where
  coverChildren : Bool
  continueAfterCppException : Bool
  stopOnAssert : Bool
  dumpOnCrash : Bool
  dumpDirectory : String
deriving DecidableEq

/-- The fatal failures of the event loop, one per C++ throw site: the four
`THROW` invariant messages of `OnCreateProcess` / `OnCreateThread` /
`OnExitProcess` / `OnExitThread`, the `THROW` for an unknown exception
classification, and the `std::out_of_range` raised by `std::map::at` in
`GetProcessHandle` / `GetThreadHandle`. -/
inductive DebuggerError where
  | processIdAlreadyExists
  | threadIdAlreadyExists
  | cannotFindExitedProcess
  | cannotFindExitedThread
  | invalidExceptionType
  | processHandleNotFound
  | threadHandleNotFound
deriving DecidableEq

/-- The payload of a `DEBUG_EVENT` discriminated by `dwDebugEventCode`. For an
exception event the record carries `dwFirstChance`, the exception code of the
exception record, and the classification that the external
`IDebugEventsHandler::OnException` callback answers for this event, encoded as
the underlying value of the `ExceptionType` enumeration (the handler is an
external collaborator, so its answer is scripted with the event). -/
inductive DebugEventInfo where
  | createProcess
  | createThread
  | exitProcess (dwExitCode : Nat)
  | exitThread
  | loadDll
  | unloadDll
  | exception (dwFirstChance : Bool) (exceptionCode : Nat) (exceptionType : Nat)
  | rip
  | other (code : Nat)
deriving DecidableEq

/-- A debug event: the process id, the thread id and the payload. -/
structure DEBUG_EVENT where
  dwProcessId : Nat
  dwThreadId : Nat
  info : DebugEventInfo
deriving DecidableEq

/-- Underlying values of the `IDebugEventsHandler::ExceptionType`
enumeration. -/
def ExceptionTypeBreakPoint : Nat := 0

/-- Underlying value of `ExceptionType::InvalidBreakPoint`. -/
def ExceptionTypeInvalidBreakPoint : Nat := 1

/-- Underlying value of `ExceptionType::NotHandled`. -/
def ExceptionTypeNotHandled : Nat := 2

/-- Underlying value of `ExceptionType::Error`. -/
def ExceptionTypeError : Nat := 3

/-- Underlying value of `ExceptionType::CppError`. -/
def ExceptionTypeCppError : Nat := 4

/-- Conversion of a 32-bit unsigned value to a signed `int`, as performed by
`static_cast<int>` on a `DWORD` exception or exit code: reduce modulo `2 ^ 32`
and re-centre into `[-2 ^ 31, 2 ^ 31)`. -/
def toInt32 (n : Nat) : Int :=
  if n % 2 ^ 32 < 2 ^ 31 then ((n % 2 ^ 32 : Nat) : Int)
  else ((n % 2 ^ 32 : Nat) : Int) - 2 ^ 32

/-- The OS breakpoint status code `EXCEPTION_BREAKPOINT` (0x80000003). -/
def EXCEPTION_BREAKPOINT : Nat := 0x80000003

/-- Embeds the decision of `Debugger::HandleCrashDump`: whether a minidump is
attempted. Skipped entirely when `dumpOnCrash` is off, and skipped for a
first-chance exception unless `includeFirstChance` holds; the file writing
itself is an external effect and is reported as this boolean. -/
def HandleCrashDump (d : Debugger) (dwFirstChance : Bool) (includeFirstChance : Bool) : Bool :=
  if !d.dumpOnCrash then false
  else if dwFirstChance && !includeFirstChance then false
  else true

/-- Embeds `Debugger::OnException`: the switch on the handler's classification.
Returns the `ProcessStatus` together with the `HandleCrashDump` decision;
classifications outside the five enumeration values hit the trailing
`THROW("Invalid exception Type.")`. -/
def OnException (d : Debugger) (dwFirstChance : Bool) (exceptionCode : Nat)
    (exceptionType : Nat) : Except DebuggerError (ProcessStatus × Bool) :=
  if exceptionType = ExceptionTypeBreakPoint then
    .ok ({ exitCode := none, continueStatus := some ContinueType.dbgContinue }, false)
  else if exceptionType = ExceptionTypeInvalidBreakPoint then
    let dumped := HandleCrashDump d dwFirstChance true
    if d.stopOnAssert then
      .ok ({ exitCode := none, continueStatus := some ContinueType.dbgExceptionNotHandled },
           dumped)
    else
      .ok ({ exitCode := some (toInt32 EXCEPTION_BREAKPOINT),
             continueStatus := some ContinueType.dbgContinue }, dumped)
  else if exceptionType = ExceptionTypeNotHandled then
    .ok ({ exitCode := none, continueStatus := some ContinueType.dbgExceptionNotHandled },
         HandleCrashDump d dwFirstChance false)
  else if exceptionType = ExceptionTypeError then
    .ok ({ exitCode := none, continueStatus := some ContinueType.dbgExceptionNotHandled },
         HandleCrashDump d dwFirstChance false)
  else if exceptionType = ExceptionTypeCppError then
    let dumped := HandleCrashDump d dwFirstChance false
    if d.continueAfterCppException then
      .ok ({ exitCode := some (toInt32 exceptionCode),
             continueStatus := some ContinueType.dbgContinue }, dumped)
    else
      .ok ({ exitCode := none, continueStatus := some ContinueType.dbgExceptionNotHandled },
           dumped)
  else .error .invalidExceptionType

/-- Embeds `Debugger::OnCreateThread`: `emplace` into the thread table,
throwing when the thread id already exists. -/
def OnCreateThread (st : DebuggerState) (dwThreadId : Nat) :
    Except DebuggerError DebuggerState :=
  if dwThreadId ∈ st.threadHandles then .error .threadIdAlreadyExists
  else .ok { st with threadHandles := insert dwThreadId st.threadHandles }

/-- Embeds `Debugger::OnExitThread`: `erase` from the thread table, throwing
when the thread id is absent. -/
def OnExitThread (st : DebuggerState) (dwThreadId : Nat) :
    Except DebuggerError DebuggerState :=
  if dwThreadId ∈ st.threadHandles then
    .ok { st with threadHandles := st.threadHandles.erase dwThreadId }
  else .error .cannotFindExitedThread

/-- Embeds `Debugger::OnCreateProcess`: record the root process id when none
is set and the process table is empty, `emplace` into the process table
(throwing on a duplicate id), then synthesize the initial-thread creation. -/
def OnCreateProcess (st : DebuggerState) (dwProcessId dwThreadId : Nat) :
    Except DebuggerError DebuggerState :=
  let st1 :=
    if st.rootProcessId = none ∧ st.processHandles = ∅ then
      { st with rootProcessId := some dwProcessId }
    else st
  if dwProcessId ∈ st1.processHandles then .error .processIdAlreadyExists
  else
    OnCreateThread { st1 with processHandles := insert dwProcessId st1.processHandles }
      dwThreadId

/-- Embeds `Debugger::OnExitProcess`: synthesize the exiting thread's
`OnExitThread`, then `erase` the process id (throwing when absent) and return
the event's `dwExitCode` as the per-process exit code. -/
def OnExitProcess (st : DebuggerState) (dwProcessId dwThreadId : Nat) (dwExitCode : Nat) :
    Except DebuggerError (Int × DebuggerState) :=
  match OnExitThread st dwThreadId with
  | .error err => .error err
  | .ok st1 =>
    if dwProcessId ∈ st1.processHandles then
      .ok (toInt32 dwExitCode,
           { st1 with processHandles := st1.processHandles.erase dwProcessId })
    else .error .cannotFindExitedProcess

/-- Embeds `Debugger::HandleNotCreationalEvent`: the switch over the
non-creational event codes. The boolean of the result records whether a
minidump was attempted during the event. `LOAD_DLL`, `UNLOAD_DLL`, `RIP` and
unknown codes only call the external handler or log, leaving the state
untouched. -/
def HandleNotCreationalEvent (d : Debugger) (st : DebuggerState) (debugEvent : DEBUG_EVENT) :
    Except DebuggerError (ProcessStatus × Bool × DebuggerState) :=
  match debugEvent.info with
  | .exitProcess dwExitCode =>
    match OnExitProcess st debugEvent.dwProcessId debugEvent.dwThreadId dwExitCode with
    | .error err => .error err
    | .ok (exitCode, st1) =>
      .ok ({ exitCode := some exitCode, continueStatus := none }, false, st1)
  | .exitThread =>
    match OnExitThread st debugEvent.dwThreadId with
    | .error err => .error err
    | .ok st1 => .ok ({}, false, st1)
  | .exception dwFirstChance exceptionCode exceptionType =>
    match OnException d dwFirstChance exceptionCode exceptionType with
    | .error err => .error err
    | .ok (processStatus, dumped) => .ok (processStatus, dumped, st)
  | _ => .ok ({}, false, st)

/-- Embeds `Debugger::HandleDebugEvent`: creational events dispatch to
`OnCreateProcess` / `OnCreateThread`; every other event first looks up the
process and thread handles (`std::map::at`, raising when the id is absent)
before dispatching to `HandleNotCreationalEvent`. -/
def HandleDebugEvent (d : Debugger) (st : DebuggerState) (debugEvent : DEBUG_EVENT) :
    Except DebuggerError (ProcessStatus × Bool × DebuggerState) :=
  match debugEvent.info with
  | .createProcess =>
    match OnCreateProcess st debugEvent.dwProcessId debugEvent.dwThreadId with
    | .error err => .error err
    | .ok st1 => .ok ({}, false, st1)
  | .createThread =>
    match OnCreateThread st debugEvent.dwThreadId with
    | .error err => .error err
    | .ok st1 => .ok ({}, false, st1)
  | _ =>
    if debugEvent.dwProcessId ∉ st.processHandles then .error .processHandleNotFound
    else if debugEvent.dwThreadId ∉ st.threadHandles then .error .threadHandleNotFound
    else HandleNotCreationalEvent d st debugEvent

/-- The root exit-code latch of `Debugger::Debug`: record the status's exit
code only when it is present, the event's process id equals the current root
process id, and nothing is latched yet; never overwrite. -/
def LatchExitCode (st1 : DebuggerState) (debugEvent : DEBUG_EVENT)
    (processStatus : ProcessStatus) (exitCode : Option Int) : Option Int :=
  if processStatus.exitCode ≠ none ∧ st1.rootProcessId = some debugEvent.dwProcessId
      ∧ exitCode = none then
    processStatus.exitCode
  else exitCode

/-- Embeds the `while (!exitCode || !processHandles_.empty())` loop of
`Debugger::Debug`, driven by a finite event script in place of
`WaitForDebugEvent`. The loop stops with `some (code, state)` when an exit
code is latched and the process table is empty; a script exhausted while the
loop condition still holds corresponds to blocking forever on
`WaitForDebugEvent` and yields `none`. `ContinueDebugEvent` is an external
primitive assumed to succeed. -/
def DebugLoop (d : Debugger) : List DEBUG_EVENT → DebuggerState → Option Int →
    Except DebuggerError (Option (Int × DebuggerState))
  | events, st, some c =>
    if st.processHandles = ∅ then .ok (some (c, st))
    else
      match events with
      | [] => .ok none
      | debugEvent :: rest =>
        match HandleDebugEvent d st debugEvent with
        | .error err => .error err
        | .ok (processStatus, _, st1) =>
          DebugLoop d rest st1 (LatchExitCode st1 debugEvent processStatus (some c))
  | events, st, none =>
    match events with
    | [] => .ok none
    | debugEvent :: rest =>
      match HandleDebugEvent d st debugEvent with
      | .error err => .error err
      | .ok (processStatus, _, st1) =>
        DebugLoop d rest st1 (LatchExitCode st1 debugEvent processStatus none)

/-- The reset state after the three clearing statements at the top of
`Debugger::Debug`. -/
def InitialDebuggerState : DebuggerState :=
  { processHandles := ∅, threadHandles := ∅, rootProcessId := none }

/-- Embeds `Debugger::Debug`: clear the process table, the thread table and
the root process id of whatever state the `Debugger` object held, then run the
event loop with an empty exit-code latch. -/
def Debug (d : Debugger) (st0 : DebuggerState) (events : List DEBUG_EVENT) :
    Except DebuggerError (Option (Int × DebuggerState)) :=
  let st := { st0 with processHandles := (∅ : Finset Nat),
                       threadHandles := (∅ : Finset Nat),
                       rootProcessId := (none : Option Nat) }
  DebugLoop d events st none

/-- The event-handling composition of the loop: `HandleDebugEvent` folded over
an event list, ignoring statuses; the state after each processed event of a
run is the value of this fold on the corresponding script segment. -/
def HandleEvents (d : Debugger) : List DEBUG_EVENT → DebuggerState →
    Except DebuggerError DebuggerState
  | [], st => .ok st
  | debugEvent :: rest, st =>
    match HandleDebugEvent d st debugEvent with
    | .error err => .error err
    | .ok (_, _, st1) => HandleEvents d rest st1

/-! ## Derived observation helpers used by the claims -/

/-- Whether an `Except` outcome is a failure. -/
def isError {ε α : Type} : Except ε α → Bool
  | .error _ => true
  | .ok _ => false

/-- Whether a payload is a `CREATE_PROCESS` event. -/
def DebugEventInfo.isCreateProcessCode : DebugEventInfo → Bool
  | .createProcess => true
  | _ => false

/-- Whether a payload is a `CREATE_THREAD` event. -/
def DebugEventInfo.isCreateThreadCode : DebugEventInfo → Bool
  | .createThread => true
  | _ => false

/-- Whether a payload is an `EXIT_PROCESS` event. -/
def DebugEventInfo.isExitProcessCode : DebugEventInfo → Bool
  | .exitProcess _ => true
  | _ => false

/-- Whether a payload is an `EXIT_THREAD` event. -/
def DebugEventInfo.isExitThreadCode : DebugEventInfo → Bool
  | .exitThread => true
  | _ => false

/-- Number of `CREATE_PROCESS` events of a script carrying the given process
id. -/
def processCreateCount (events : List DEBUG_EVENT) (pid : Nat) : Nat :=
  events.countP fun e => decide (e.dwProcessId = pid) && e.info.isCreateProcessCode

/-- Number of `EXIT_PROCESS` events of a script carrying the given process
id. -/
def processExitCount (events : List DEBUG_EVENT) (pid : Nat) : Nat :=
  events.countP fun e => decide (e.dwProcessId = pid) && e.info.isExitProcessCode

/-- Number of events of a script that create the given thread id: its
`CREATE_THREAD` events plus the synthetic initial-thread creations of its
`CREATE_PROCESS` events. -/
def threadCreateCount (events : List DEBUG_EVENT) (tid : Nat) : Nat :=
  events.countP fun e =>
    decide (e.dwThreadId = tid)
      && (e.info.isCreateProcessCode || e.info.isCreateThreadCode)

/-- Number of events of a script that remove the given thread id: its
`EXIT_THREAD` events plus the synthetic removals of its `EXIT_PROCESS`
events. -/
def threadRemoveCount (events : List DEBUG_EVENT) (tid : Nat) : Nat :=
  events.countP fun e =>
    decide (e.dwThreadId = tid)
      && (e.info.isExitProcessCode || e.info.isExitThreadCode)

/-- Whether a script contains a `CREATE_PROCESS` event for the given process
id. -/
def seenCreateProcess (events : List DEBUG_EVENT) (pid : Nat) : Bool :=
  events.any fun e => decide (e.dwProcessId = pid) && e.info.isCreateProcessCode

/-- Whether a script contains an `EXIT_PROCESS` event for the given process
id. -/
def seenExitProcess (events : List DEBUG_EVENT) (pid : Nat) : Bool :=
  events.any fun e => decide (e.dwProcessId = pid) && e.info.isExitProcessCode

/-- The exact situations in which `HandleDebugEvent` fails, written from the
code: a `CREATE_PROCESS` whose process id is already present or whose
synthetic initial-thread id is already present; a `CREATE_THREAD` whose thread
id is already present; for every non-creational event, a process or thread id
absent from the corresponding handle table; and an exception whose
classification lies outside the five enumeration values once both lookups
succeed. -/
def StepFailureCondition (st : DebuggerState) (e : DEBUG_EVENT) : Bool :=
  match e.info with
  | .createProcess =>
    decide (e.dwProcessId ∈ st.processHandles) || decide (e.dwThreadId ∈ st.threadHandles)
  | .createThread => decide (e.dwThreadId ∈ st.threadHandles)
  | .exception _ _ exceptionType =>
    !decide (e.dwProcessId ∈ st.processHandles)
      || !decide (e.dwThreadId ∈ st.threadHandles)
      || decide (ExceptionTypeCppError < exceptionType)
  | _ =>
    !decide (e.dwProcessId ∈ st.processHandles)
      || !decide (e.dwThreadId ∈ st.threadHandles)

/-- The failure situations as the claim lists them: a duplicate process id or
synthetic initial-thread id on `CREATE_PROCESS`, a duplicate thread id on
`CREATE_THREAD`, an `EXIT_PROCESS` or `EXIT_THREAD` whose id is absent from
the corresponding table, and an exception classification outside the five
known kinds. -/
def ClaimedFailureCondition (st : DebuggerState) (e : DEBUG_EVENT) : Bool :=
  match e.info with
  | .createProcess =>
    decide (e.dwProcessId ∈ st.processHandles) || decide (e.dwThreadId ∈ st.threadHandles)
  | .createThread => decide (e.dwThreadId ∈ st.threadHandles)
  | .exitProcess _ => !decide (e.dwProcessId ∈ st.processHandles)
  | .exitThread => !decide (e.dwThreadId ∈ st.threadHandles)
  | .exception _ _ exceptionType => decide (ExceptionTypeCppError < exceptionType)
  | _ => false

/-- Whether an event is an exception whose classification makes `OnException`
return a status carrying an exit code under the given construction flags: an
`InvalidBreakPoint` with `stopOnAssert` off, or a `CppError` with
`continueAfterCppException` on. -/
def ExceptionLatchesCode (d : Debugger) (e : DEBUG_EVENT) : Bool :=
  match e.info with
  | .exception _ _ exceptionType =>
    (decide (exceptionType = ExceptionTypeInvalidBreakPoint) && !d.stopOnAssert)
      || (decide (exceptionType = ExceptionTypeCppError) && d.continueAfterCppException)
  | _ => false

/-- A debugger configuration with every flag off, used by the concrete
scenario runs (the scripts they drive contain no exception events, so the
flags are irrelevant to them). -/
def DefaultDebuggerConfig : Debugger :=
  { coverChildren := false, continueAfterCppException := false,
    stopOnAssert := false, dumpOnCrash := false, dumpDirectory := "" }

/-- Scenario script of the spec: root 100 creates, child 200 creates, root
exits with code 7, child exits with code 9. -/
def RootExitFirstScript : List DEBUG_EVENT :=
  [⟨100, 1, .createProcess⟩, ⟨200, 2, .createProcess⟩,
   ⟨100, 1, .exitProcess 7⟩, ⟨200, 2, .exitProcess 9⟩]

/-- Scenario script of the spec with the two exits in reversed order. -/
def ChildExitFirstScript : List DEBUG_EVENT :=
  [⟨100, 1, .createProcess⟩, ⟨200, 2, .createProcess⟩,
   ⟨200, 2, .exitProcess 9⟩, ⟨100, 1, .exitProcess 7⟩]

/-- Script in which a swallowed `InvalidBreakPoint` on the root precedes the
root's `EXIT_PROCESS(7)`. -/
def BreakPointBeforeExitScript : List DEBUG_EVENT :=
  [⟨100, 1, .createProcess⟩,
   ⟨100, 1, .exception false 0 ExceptionTypeInvalidBreakPoint⟩,
   ⟨100, 1, .exitProcess 7⟩]

/-- Script that exits process 100 and then creates a process with the same,
reused id. -/
def ReusedPidScript : List DEBUG_EVENT :=
  [⟨100, 1, .createProcess⟩, ⟨100, 1, .exitProcess 7⟩, ⟨100, 2, .createProcess⟩]

/-- Minimal script: one process is created and exits with code 7. -/
def SingleProcessScript : List DEBUG_EVENT :=
  [⟨100, 1, .createProcess⟩, ⟨100, 1, .exitProcess 7⟩]

/-- A coverage filter manager whose wildcard filter accepts everything and
whose diff-filter sequence is empty. -/
def EmptyDiffManager : CoverageFilterManager :=
  { wildcardCoverageFilter :=
      { isModuleSelected := fun _ => true, isSourceFileSelected := fun _ => true },
    unifiedDiffCoverageFilters := [] }

end CppCoverage

namespace CppCoverage

/-! ## Sorted-list lemmas for the nearest-executable-line resolution -/

theorem head?_dropWhile_lt_iff_mem (n : Int) :
    ∀ {l : List Int}, l.Sorted (· ≤ ·) →
      (((l.dropWhile fun x => decide (x < n)).head? = some n) ↔ n ∈ l) := by
  intro l
  induction l with
  | nil => intro _; simp
  | cons a t ih =>
    intro hs
    rw [List.sorted_cons] at hs
    obtain ⟨ha, hts⟩ := hs
    by_cases hlt : a < n
    · rw [List.dropWhile_cons, if_pos (by simpa using hlt), ih hts]
      constructor
      · intro h
        exact List.mem_cons_of_mem _ h
      · intro h
        rcases List.mem_cons.mp h with h | h
        · subst h
          omega
        · exact h
    · rw [List.dropWhile_cons, if_neg (by simpa using hlt)]
      simp only [List.head?_cons, Option.some.injEq]
      constructor
      · intro h
        subst h
        exact List.mem_cons_self _ _
      · intro h
        rcases List.mem_cons.mp h with h | h
        · exact h.symm
        · have := ha n h
          omega

theorem takeWhile_lt_eq_filter (n : Int) :
    ∀ {l : List Int}, l.Sorted (· ≤ ·) →
      (l.takeWhile fun x => decide (x < n)) = l.filter fun x => decide (x < n) := by
  intro l
  induction l with
  | nil => intro _; rfl
  | cons a t ih =>
    intro hs
    rw [List.sorted_cons] at hs
    obtain ⟨ha, hts⟩ := hs
    by_cases hlt : a < n
    · rw [List.takeWhile_cons, List.filter_cons, if_pos (by simpa using hlt),
        if_pos (by simpa using hlt), ih hts]
    · rw [List.takeWhile_cons, List.filter_cons, if_neg (by simpa using hlt),
        if_neg (by simpa using hlt)]
      symm
      rw [List.filter_eq_nil_iff]
      intro x hx
      have := ha x hx
      simp only [decide_eq_true_eq]
      omega

theorem getLast?_sorted_le {x : Int} :
    ∀ {l : List Int}, l.Sorted (· ≤ ·) → l.getLast? = some x →
      x ∈ l ∧ ∀ y ∈ l, y ≤ x := by
  intro l
  induction l with
  | nil => intro _ h; simp at h
  | cons a t ih =>
    intro hs h
    rw [List.sorted_cons] at hs
    obtain ⟨ha, hts⟩ := hs
    cases t with
    | nil =>
      simp only [List.getLast?_singleton, Option.some.injEq] at h
      subst h
      exact ⟨List.mem_cons_self _ _, by simp⟩
    | cons b t2 =>
      rw [List.getLast?_cons_cons] at h
      obtain ⟨hmem, hub⟩ := ih hts h
      refine ⟨List.mem_cons_of_mem _ hmem, ?_⟩
      intro y hy
      rcases List.mem_cons.mp hy with hy | hy
      · subst hy
        exact ha x hmem
      · exact hub y hy

theorem getExecutableLineOrPreviousOne_eq (lineNumber : Int) (S : Finset Int) :
    GetExecutableLineOrPreviousOne lineNumber S =
      if lineNumber ∈ S then some lineNumber
      else if h : (S.filter (· < lineNumber)).Nonempty then
        some ((S.filter (· < lineNumber)).max' h)
      else none := by
  have hs : (S.sort (· ≤ ·)).Sorted (· ≤ ·) := Finset.sort_sorted _ _
  unfold GetExecutableLineOrPreviousOne
  by_cases hmem : lineNumber ∈ S
  · rw [if_pos hmem,
      if_pos ((head?_dropWhile_lt_iff_mem lineNumber hs).mpr ((Finset.mem_sort _).mpr hmem))]
  · rw [if_neg hmem,
      if_neg (fun hhd =>
        hmem ((Finset.mem_sort _).mp ((head?_dropWhile_lt_iff_mem lineNumber hs).mp hhd))),
      takeWhile_lt_eq_filter lineNumber hs]
    have hmemf : ∀ y : Int,
        (y ∈ (S.sort (· ≤ ·)).filter fun x => decide (x < lineNumber)) ↔
          y ∈ S.filter (· < lineNumber) := by
      intro y
      simp [List.mem_filter, Finset.mem_sort, Finset.mem_filter]
    by_cases hne : (S.filter (· < lineNumber)).Nonempty
    · rw [dif_pos hne]
      obtain ⟨y0, hy0⟩ := hne
      have hfl : ((S.sort (· ≤ ·)).filter fun x => decide (x < lineNumber)) ≠ [] := by
        intro hnil
        have := (hmemf y0).mpr hy0
        rw [hnil] at this
        simp at this
      have hsf : ((S.sort (· ≤ ·)).filter fun x => decide (x < lineNumber)).Sorted (· ≤ ·) :=
        List.Pairwise.filter _ hs
      have hlast := List.getLast?_eq_getLast _ hfl
      obtain ⟨hxmem, hxub⟩ := getLast?_sorted_le hsf hlast
      rw [hlast]
      congr 1
      exact le_antisymm
        (Finset.le_max' _ _ ((hmemf _).mp hxmem))
        (Finset.max'_le _ _ _ fun y hy => hxub y ((hmemf y).mpr hy))
    · rw [dif_neg hne]
      have hnil : ((S.sort (· ≤ ·)).filter fun x => decide (x < lineNumber)) = [] := by
        rw [List.filter_eq_nil_iff]
        intro y hy hlt
        exact hne ⟨y, Finset.mem_filter.mpr ⟨(Finset.mem_sort _).mp hy, by simpa using hlt⟩⟩
      rw [hnil]
      rfl

/-- C1: `IsLineSelected(filename, lineNumber, executableLinesSet)` equals the
reference definition: with no diff filters it is `true`; otherwise a member
line resolves to itself, a non-member resolves to the largest strictly
smaller executable line when one exists and is rejected when none does, and a
resolved line is accepted iff some diff filter accepts it on the given
filename. -/
theorem isLineSelected_matches_reference (m : CoverageFilterManager) (filename : String)
    (lineNumber : Int) (executableLinesSet : Finset Int) :
    m.IsLineSelected filename lineNumber executableLinesSet =
      IsLineSelectedSpec m filename lineNumber executableLinesSet := by
  unfold CoverageFilterManager.IsLineSelected IsLineSelectedSpec
  rw [getExecutableLineOrPreviousOne_eq]
  cases hl : m.unifiedDiffCoverageFilters with
  | nil => simp
  | cons f fs =>
    by_cases hmem : lineNumber ∈ executableLinesSet
    · simp [hmem, AnyOfOrTrueIfEmpty]
    · by_cases hne : (executableLinesSet.filter (· < lineNumber)).Nonempty
      · simp [hmem, hne, AnyOfOrTrueIfEmpty]
      · simp [hmem, hne]

/-- C5: `IsSourceFileSelected` is `false` whenever the wildcard filter
rejects; when the wildcard filter accepts, it is `true` on an empty
diff-filter sequence and otherwise agrees with the disjunction of the diff
filters; and with an empty diff-filter sequence it is extensionally the
wildcard filter's source-file predicate. -/
theorem isSourceFileSelected_spec (m : CoverageFilterManager) (filename : String) :
    (m.IsSourceFileSelected filename =
      if m.wildcardCoverageFilter.isSourceFileSelected filename = false then false
      else if m.unifiedDiffCoverageFilters.isEmpty then true
      else m.unifiedDiffCoverageFilters.any fun filter =>
        filter.isSourceFileSelected filename)
    ∧ (m.unifiedDiffCoverageFilters.isEmpty = true →
        m.IsSourceFileSelected filename
          = m.wildcardCoverageFilter.isSourceFileSelected filename) := by
  unfold CoverageFilterManager.IsSourceFileSelected AnyOfOrTrueIfEmpty
  constructor
  · cases hw : m.wildcardCoverageFilter.isSourceFileSelected filename <;>
      cases he : m.unifiedDiffCoverageFilters.isEmpty <;> simp [hw, he]
  · intro he
    cases hw : m.wildcardCoverageFilter.isSourceFileSelected filename <;> simp [hw, he]

/-- Witness for C5 at a concrete manager with an empty diff-filter sequence. -/
theorem isSourceFileSelected_spec_witness :
    EmptyDiffManager.IsSourceFileSelected "x.cpp"
      = EmptyDiffManager.wildcardCoverageFilter.isSourceFileSelected "x.cpp" :=
  (isSourceFileSelected_spec EmptyDiffManager "x.cpp").2 rfl

/-! ## Warning-message lemmas -/

theorem appendUnmatchPathLines_eq :
    ∀ (paths : List String) (i maxUnmatchPaths : Nat), i ≤ maxUnmatchPaths →
      AppendUnmatchPathLines paths i maxUnmatchPaths =
        (paths.take (maxUnmatchPaths - i)).map (fun p => "\t- " ++ p)
          ++ if maxUnmatchPaths - i < paths.length then ["\t..."] else [] := by
  intro paths
  induction paths with
  | nil => intro i m h; simp [AppendUnmatchPathLines]
  | cons p rest ih =>
    intro i m h
    by_cases him : m ≤ i
    · have hz : m - i = 0 := by omega
      simp [AppendUnmatchPathLines, him, hz]
    · have h1 : i + 1 ≤ m := by omega
      have h2 : m - i = (m - (i + 1)) + 1 := by omega
      simp only [AppendUnmatchPathLines, if_neg him]
      rw [ih (i + 1) m h1, h2, List.take_succ_cons, List.map_cons]
      simp only [List.cons_append, List.length_cons]
      by_cases h4 : m - (i + 1) < rest.length
      · rw [if_pos h4, if_pos (by omega)]
      · rw [if_neg h4, if_neg (by omega)]

/-- C6: on a set of `N` distinct unmatched paths, `ComputeWarningMessageLines`
is empty for `N = 0`, and for `N > 0` is the fixed four-line header carrying
the count `N`, followed by `K = min(N, maxUnmatchPaths)` path lines in sorted
order, followed by one ellipsis line exactly when `N > maxUnmatchPaths`. -/
theorem computeWarningMessageLines_spec (unmatchPaths : Finset String)
    (maxUnmatchPaths : Nat) :
    (ComputeWarningMessageLinesSet unmatchPaths maxUnmatchPaths =
      if unmatchPaths.card = 0 then []
      else
        WarningHeaderLines unmatchPaths.card
          ++ ((unmatchPaths.sort (· ≤ ·)).take maxUnmatchPaths).map (fun p => "\t- " ++ p)
          ++ if maxUnmatchPaths < unmatchPaths.card then ["\t..."] else [])
    ∧ (((unmatchPaths.sort (· ≤ ·)).take maxUnmatchPaths).map
        (fun p => "\t- " ++ p)).length = min unmatchPaths.card maxUnmatchPaths := by
  constructor
  · unfold ComputeWarningMessageLinesSet
    by_cases hemp : unmatchPaths = ∅
    · simp [hemp]
    · rw [if_neg hemp, if_neg (by simpa [Finset.card_eq_zero] using hemp),
        appendUnmatchPathLines_eq _ 0 _ (Nat.zero_le _), Nat.sub_zero]
      simp [Finset.length_sort, List.append_assoc]
  · rw [List.length_map, List.length_take, Finset.length_sort]
    exact Nat.min_comm _ _

end CppCoverage

namespace CppCoverage

/-! ## Step-level facts about the debugger operations -/

theorem onCreateThread_ok {st : DebuggerState} {tid : Nat} {st1 : DebuggerState}
    (h : OnCreateThread st tid = .ok st1) :
    tid ∉ st.threadHandles
      ∧ st1 = { st with threadHandles := insert tid st.threadHandles } := by
  unfold OnCreateThread at h
  split_ifs at h with hmem
  simp only [Except.ok.injEq] at h
  exact ⟨hmem, h.symm⟩

theorem onExitThread_ok {st : DebuggerState} {tid : Nat} {st1 : DebuggerState}
    (h : OnExitThread st tid = .ok st1) :
    tid ∈ st.threadHandles
      ∧ st1 = { st with threadHandles := st.threadHandles.erase tid } := by
  unfold OnExitThread at h
  split_ifs at h with hmem
  simp only [Except.ok.injEq] at h
  exact ⟨hmem, h.symm⟩

theorem onCreateProcess_ok {st : DebuggerState} {pid tid : Nat} {st1 : DebuggerState}
    (h : OnCreateProcess st pid tid = .ok st1) :
    pid ∉ st.processHandles ∧ tid ∉ st.threadHandles
      ∧ st1.processHandles = insert pid st.processHandles
      ∧ st1.threadHandles = insert tid st.threadHandles
      ∧ st1.rootProcessId =
          (if st.rootProcessId = none ∧ st.processHandles = ∅ then some pid
           else st.rootProcessId) := by
  unfold OnCreateProcess at h
  by_cases hroot : st.rootProcessId = none ∧ st.processHandles = ∅
  · rw [if_pos hroot] at h
    dsimp only at h
    split_ifs at h with hp
    obtain ⟨htid, hst⟩ := onCreateThread_ok h
    subst hst
    exact ⟨hp, htid, rfl, rfl, by rw [if_pos hroot]⟩
  · rw [if_neg hroot] at h
    dsimp only at h
    split_ifs at h with hp
    obtain ⟨htid, hst⟩ := onCreateThread_ok h
    subst hst
    exact ⟨hp, htid, rfl, rfl, by rw [if_neg hroot]⟩

theorem onExitProcess_ok {st : DebuggerState} {pid tid : Nat} {dwExitCode : Nat}
    {code : Int} {st1 : DebuggerState}
    (h : OnExitProcess st pid tid dwExitCode = .ok (code, st1)) :
    pid ∈ st.processHandles ∧ tid ∈ st.threadHandles
      ∧ code = toInt32 dwExitCode
      ∧ st1.processHandles = st.processHandles.erase pid
      ∧ st1.threadHandles = st.threadHandles.erase tid
      ∧ st1.rootProcessId = st.rootProcessId := by
  unfold OnExitProcess at h
  cases het : OnExitThread st tid with
  | error err => rw [het] at h; simp at h
  | ok stA =>
    rw [het] at h
    obtain ⟨htid, hstA⟩ := onExitThread_ok het
    subst hstA
    dsimp only at h
    split_ifs at h with hp
    simp only [Except.ok.injEq, Prod.mk.injEq] at h
    obtain ⟨hcode, hst⟩ := h
    subst hst
    exact ⟨hp, htid, hcode.symm, rfl, rfl, rfl⟩

theorem onException_ok_exitCode {d : Debugger} {dwFirstChance : Bool}
    {exceptionCode exceptionType : Nat} {ps : ProcessStatus} {dumped : Bool}
    (h : OnException d dwFirstChance exceptionCode exceptionType = .ok (ps, dumped)) :
    ps.exitCode = none
      ∨ (exceptionType = ExceptionTypeInvalidBreakPoint ∧ d.stopOnAssert = false)
      ∨ (exceptionType = ExceptionTypeCppError ∧ d.continueAfterCppException = true) := by
  unfold OnException at h
  split_ifs at h with h0 h1 hsa h2 h3 h4 hcpp <;>
    simp only [Except.ok.injEq, Prod.mk.injEq] at h
  · left; rw [← h.1]
  · left; rw [← h.1]
  · right; left; exact ⟨h1, by simpa using hsa⟩
  · left; rw [← h.1]
  · left; rw [← h.1]
  · right; right; exact ⟨h4, hcpp⟩
  · left; rw [← h.1]

end CppCoverage

namespace CppCoverage

/-! ## Step-level facts about `HandleDebugEvent` -/

theorem handleDebugEvent_createProcess {d : Debugger} {st : DebuggerState} {pid tid : Nat}
    {ps : ProcessStatus} {dumped : Bool} {st1 : DebuggerState}
    (h : HandleDebugEvent d st ⟨pid, tid, DebugEventInfo.createProcess⟩
        = .ok (ps, dumped, st1)) :
    ps = {} ∧ pid ∉ st.processHandles ∧ tid ∉ st.threadHandles
      ∧ st1.processHandles = insert pid st.processHandles
      ∧ st1.threadHandles = insert tid st.threadHandles
      ∧ st1.rootProcessId =
          (if st.rootProcessId = none ∧ st.processHandles = ∅ then some pid
           else st.rootProcessId) := by
  unfold HandleDebugEvent at h
  cases hcp : OnCreateProcess st pid tid with
  | error err => rw [hcp] at h; simp at h
  | ok stA =>
    rw [hcp] at h
    simp only [Except.ok.injEq, Prod.mk.injEq] at h
    obtain ⟨hps, _, hstA⟩ := h
    subst hstA
    obtain ⟨hp, ht, h1, h2, h3⟩ := onCreateProcess_ok hcp
    exact ⟨hps.symm, hp, ht, h1, h2, h3⟩

theorem handleDebugEvent_createThread {d : Debugger} {st : DebuggerState} {pid tid : Nat}
    {ps : ProcessStatus} {dumped : Bool} {st1 : DebuggerState}
    (h : HandleDebugEvent d st ⟨pid, tid, DebugEventInfo.createThread⟩
        = .ok (ps, dumped, st1)) :
    ps = {} ∧ tid ∉ st.threadHandles
      ∧ st1 = { st with threadHandles := insert tid st.threadHandles } := by
  unfold HandleDebugEvent at h
  cases hct : OnCreateThread st tid with
  | error err => rw [hct] at h; simp at h
  | ok stA =>
    rw [hct] at h
    simp only [Except.ok.injEq, Prod.mk.injEq] at h
    obtain ⟨hps, _, hstA⟩ := h
    subst hstA
    obtain ⟨ht, h1⟩ := onCreateThread_ok hct
    exact ⟨hps.symm, ht, h1⟩

theorem handleDebugEvent_exitProcess {d : Debugger} {st : DebuggerState}
    {pid tid dwExitCode : Nat} {ps : ProcessStatus} {dumped : Bool} {st1 : DebuggerState}
    (h : HandleDebugEvent d st ⟨pid, tid, DebugEventInfo.exitProcess dwExitCode⟩
        = .ok (ps, dumped, st1)) :
    ps = { exitCode := some (toInt32 dwExitCode), continueStatus := none }
      ∧ pid ∈ st.processHandles ∧ tid ∈ st.threadHandles
      ∧ st1.processHandles = st.processHandles.erase pid
      ∧ st1.threadHandles = st.threadHandles.erase tid
      ∧ st1.rootProcessId = st.rootProcessId := by
  unfold HandleDebugEvent at h
  dsimp only at h
  split_ifs at h with hpl htl
  unfold HandleNotCreationalEvent at h
  dsimp only at h
  cases hep : OnExitProcess st pid tid dwExitCode with
  | error err => rw [hep] at h; simp at h
  | ok res =>
    obtain ⟨code, stA⟩ := res
    rw [hep] at h
    simp only [Except.ok.injEq, Prod.mk.injEq] at h
    obtain ⟨hps, _, hstA⟩ := h
    subst hstA
    obtain ⟨hp, ht, hcode, h1, h2, h3⟩ := onExitProcess_ok hep
    subst hcode
    exact ⟨hps.symm, hp, ht, h1, h2, h3⟩

theorem handleDebugEvent_exitThread {d : Debugger} {st : DebuggerState} {pid tid : Nat}
    {ps : ProcessStatus} {dumped : Bool} {st1 : DebuggerState}
    (h : HandleDebugEvent d st ⟨pid, tid, DebugEventInfo.exitThread⟩
        = .ok (ps, dumped, st1)) :
    ps = {} ∧ pid ∈ st.processHandles ∧ tid ∈ st.threadHandles
      ∧ st1 = { st with threadHandles := st.threadHandles.erase tid } := by
  unfold HandleDebugEvent at h
  dsimp only at h
  split_ifs at h with hpl htl
  unfold HandleNotCreationalEvent at h
  dsimp only at h
  cases het : OnExitThread st tid with
  | error err => rw [het] at h; simp at h
  | ok stA =>
    rw [het] at h
    simp only [Except.ok.injEq, Prod.mk.injEq] at h
    obtain ⟨hps, _, hstA⟩ := h
    subst hstA
    obtain ⟨ht, h1⟩ := onExitThread_ok het
    exact ⟨hps.symm, hpl, ht, h1⟩

theorem handleDebugEvent_exception {d : Debugger} {st : DebuggerState} {pid tid : Nat}
    {dwFirstChance : Bool} {exceptionCode exceptionType : Nat}
    {ps : ProcessStatus} {dumped : Bool} {st1 : DebuggerState}
    (h : HandleDebugEvent d st
          ⟨pid, tid, DebugEventInfo.exception dwFirstChance exceptionCode exceptionType⟩
        = .ok (ps, dumped, st1)) :
    pid ∈ st.processHandles ∧ tid ∈ st.threadHandles ∧ st1 = st
      ∧ OnException d dwFirstChance exceptionCode exceptionType = .ok (ps, dumped) := by
  unfold HandleDebugEvent at h
  dsimp only at h
  split_ifs at h with hpl htl
  unfold HandleNotCreationalEvent at h
  dsimp only at h
  cases hex : OnException d dwFirstChance exceptionCode exceptionType with
  | error err => rw [hex] at h; simp at h
  | ok res =>
    obtain ⟨psA, dumpedA⟩ := res
    rw [hex] at h
    simp only [Except.ok.injEq, Prod.mk.injEq] at h
    obtain ⟨hps, hdmp, hstA⟩ := h
    subst hps; subst hdmp
    exact ⟨hpl, htl, hstA.symm, rfl⟩

theorem handleDebugEvent_passive {d : Debugger} {st : DebuggerState} {pid tid : Nat}
    {info : DebugEventInfo} {ps : ProcessStatus} {dumped : Bool} {st1 : DebuggerState}
    (hinfo : info = DebugEventInfo.loadDll ∨ info = DebugEventInfo.unloadDll
      ∨ info = DebugEventInfo.rip ∨ (∃ c, info = DebugEventInfo.other c))
    (h : HandleDebugEvent d st ⟨pid, tid, info⟩ = .ok (ps, dumped, st1)) :
    ps = {} ∧ pid ∈ st.processHandles ∧ tid ∈ st.threadHandles ∧ st1 = st := by
  have step : ∀ hcl : HandleDebugEvent d st ⟨pid, tid, info⟩ =
      (if pid ∉ st.processHandles then .error .processHandleNotFound
       else if tid ∉ st.threadHandles then .error .threadHandleNotFound
       else .ok ({}, false, st)), ps = {} ∧ pid ∈ st.processHandles
        ∧ tid ∈ st.threadHandles ∧ st1 = st := by
    intro heq
    rw [heq] at h
    split_ifs at h with hpl htl
    simp only [Except.ok.injEq, Prod.mk.injEq] at h
    obtain ⟨hps, _, hstA⟩ := h
    exact ⟨hps.symm, hpl, htl, hstA.symm⟩
  rcases hinfo with hi | hi | hi | ⟨c, hi⟩ <;> subst hi <;> exact step rfl

end CppCoverage

namespace CppCoverage

/-! ## Failure characterization of one step -/

theorem onCreateThread_isError (st : DebuggerState) (tid : Nat) :
    isError (OnCreateThread st tid) = decide (tid ∈ st.threadHandles) := by
  unfold OnCreateThread
  by_cases h : tid ∈ st.threadHandles <;> simp [h, isError]

theorem onExitThread_isError (st : DebuggerState) (tid : Nat) :
    isError (OnExitThread st tid) = !decide (tid ∈ st.threadHandles) := by
  unfold OnExitThread
  by_cases h : tid ∈ st.threadHandles <;> simp [h, isError]

theorem onCreateProcess_isError (st : DebuggerState) (pid tid : Nat) :
    isError (OnCreateProcess st pid tid)
      = (decide (pid ∈ st.processHandles) || decide (tid ∈ st.threadHandles)) := by
  unfold OnCreateProcess
  by_cases hroot : st.rootProcessId = none ∧ st.processHandles = ∅
  · rw [if_pos hroot]
    dsimp only
    by_cases hp : pid ∈ st.processHandles
    · simp [hp, isError]
    · rw [if_neg hp, onCreateThread_isError]
      simp [hp]
  · rw [if_neg hroot]
    dsimp only
    by_cases hp : pid ∈ st.processHandles
    · simp [hp, isError]
    · rw [if_neg hp, onCreateThread_isError]
      simp [hp]

theorem onExitProcess_isError (st : DebuggerState) (pid tid dwExitCode : Nat) :
    isError (OnExitProcess st pid tid dwExitCode)
      = (!decide (tid ∈ st.threadHandles) || !decide (pid ∈ st.processHandles)) := by
  unfold OnExitProcess OnExitThread
  by_cases ht : tid ∈ st.threadHandles <;>
    by_cases hp : pid ∈ st.processHandles <;> simp [ht, hp, isError]

theorem onException_isError (d : Debugger) (dwFirstChance : Bool)
    (exceptionCode exceptionType : Nat) :
    isError (OnException d dwFirstChance exceptionCode exceptionType)
      = decide (ExceptionTypeCppError < exceptionType) := by
  unfold OnException ExceptionTypeBreakPoint ExceptionTypeInvalidBreakPoint
    ExceptionTypeNotHandled ExceptionTypeError ExceptionTypeCppError
  split_ifs with h0 h1 hsa h2 h3 h4 hcpp <;> simp [isError] <;> omega

/-- C9 (amended): a single dispatch of the loop fails exactly on a duplicate
process id or duplicate synthetic initial-thread id at `CREATE_PROCESS`, a
duplicate thread id at `CREATE_THREAD`, a process or thread id absent from
the corresponding handle table at any non-creational event (not only at the
two exit events), and an exception classification outside the five known
kinds reached with both ids present. -/
theorem handleDebugEvent_isError_iff (d : Debugger) (st : DebuggerState) (e : DEBUG_EVENT) :
    isError (HandleDebugEvent d st e) = StepFailureCondition st e := by
  obtain ⟨pid, tid, info⟩ := e
  cases info with
  | createProcess =>
    have htr : isError (HandleDebugEvent d st ⟨pid, tid, DebugEventInfo.createProcess⟩)
        = isError (OnCreateProcess st pid tid) := by
      cases hcp : OnCreateProcess st pid tid <;>
        simp [HandleDebugEvent, hcp, isError]
    rw [htr, onCreateProcess_isError]
    rfl
  | createThread =>
    have htr : isError (HandleDebugEvent d st ⟨pid, tid, DebugEventInfo.createThread⟩)
        = isError (OnCreateThread st tid) := by
      cases hct : OnCreateThread st tid <;>
        simp [HandleDebugEvent, hct, isError]
    rw [htr, onCreateThread_isError]
    rfl
  | exitProcess dwExitCode =>
    by_cases hp : pid ∈ st.processHandles
    · by_cases ht : tid ∈ st.threadHandles
      · have htr : isError (HandleDebugEvent d st
              ⟨pid, tid, DebugEventInfo.exitProcess dwExitCode⟩)
            = isError (OnExitProcess st pid tid dwExitCode) := by
          cases hep : OnExitProcess st pid tid dwExitCode with
          | error err => simp [HandleDebugEvent, HandleNotCreationalEvent, hp, ht, hep, isError]
          | ok r =>
            obtain ⟨a, b⟩ := r
            simp [HandleDebugEvent, HandleNotCreationalEvent, hp, ht, hep, isError]
        rw [htr, onExitProcess_isError]
        simp [StepFailureCondition, hp, ht]
      · simp [HandleDebugEvent, hp, ht, isError, StepFailureCondition]
    · simp [HandleDebugEvent, hp, isError, StepFailureCondition]
  | exitThread =>
    by_cases hp : pid ∈ st.processHandles
    · by_cases ht : tid ∈ st.threadHandles
      · have htr : isError (HandleDebugEvent d st ⟨pid, tid, DebugEventInfo.exitThread⟩)
            = isError (OnExitThread st tid) := by
          cases het : OnExitThread st tid <;>
            simp [HandleDebugEvent, HandleNotCreationalEvent, hp, ht, het, isError]
        rw [htr, onExitThread_isError]
        simp [StepFailureCondition, hp, ht]
      · simp [HandleDebugEvent, hp, ht, isError, StepFailureCondition]
    · simp [HandleDebugEvent, hp, isError, StepFailureCondition]
  | exception dwFirstChance exceptionCode exceptionType =>
    by_cases hp : pid ∈ st.processHandles
    · by_cases ht : tid ∈ st.threadHandles
      · have htr : isError (HandleDebugEvent d st
              ⟨pid, tid, DebugEventInfo.exception dwFirstChance exceptionCode exceptionType⟩)
            = isError (OnException d dwFirstChance exceptionCode exceptionType) := by
          cases hex : OnException d dwFirstChance exceptionCode exceptionType with
          | error err => simp [HandleDebugEvent, HandleNotCreationalEvent, hp, ht, hex, isError]
          | ok r =>
            obtain ⟨a, b⟩ := r
            simp [HandleDebugEvent, HandleNotCreationalEvent, hp, ht, hex, isError]
        rw [htr, onException_isError]
        simp [StepFailureCondition, hp, ht]
      · simp [HandleDebugEvent, hp, ht, isError, StepFailureCondition]
    · simp [HandleDebugEvent, hp, isError, StepFailureCondition]
  | loadDll =>
    by_cases hp : pid ∈ st.processHandles <;> by_cases ht : tid ∈ st.threadHandles <;>
      simp [HandleDebugEvent, HandleNotCreationalEvent, hp, ht, isError, StepFailureCondition]
  | unloadDll =>
    by_cases hp : pid ∈ st.processHandles <;> by_cases ht : tid ∈ st.threadHandles <;>
      simp [HandleDebugEvent, HandleNotCreationalEvent, hp, ht, isError, StepFailureCondition]
  | rip =>
    by_cases hp : pid ∈ st.processHandles <;> by_cases ht : tid ∈ st.threadHandles <;>
      simp [HandleDebugEvent, HandleNotCreationalEvent, hp, ht, isError, StepFailureCondition]
  | other code =>
    by_cases hp : pid ∈ st.processHandles <;> by_cases ht : tid ∈ st.threadHandles <;>
      simp [HandleDebugEvent, HandleNotCreationalEvent, hp, ht, isError, StepFailureCondition]

/-- Counterexample to C9 as stated: a `LOAD_DLL` event whose process id is
absent from the process table makes the dispatch fail (the `std::map::at`
lookup), yet it is none of the situations the claim lists. -/
theorem stepFailure_claim_cex :
    isError (HandleDebugEvent DefaultDebuggerConfig InitialDebuggerState
        ⟨5, 6, DebugEventInfo.loadDll⟩) = true
    ∧ ClaimedFailureCondition InitialDebuggerState ⟨5, 6, DebugEventInfo.loadDll⟩ = false :=
  ⟨rfl, rfl⟩

/-- C7: an exception classified `InvalidBreakPoint` yields, with `stopOnAssert`
off, the status carrying the OS breakpoint code and the consume directive,
and with `stopOnAssert` on, the status with no exit code and the not-handled
directive; on both paths a minidump is captured exactly when `dumpOnCrash` is
set, regardless of the first-chance flag. -/
theorem onException_invalidBreakPoint_spec (d : Debugger) (dwFirstChance : Bool)
    (exceptionCode : Nat) :
    OnException d dwFirstChance exceptionCode ExceptionTypeInvalidBreakPoint =
      .ok ((if d.stopOnAssert then
              { exitCode := none, continueStatus := some ContinueType.dbgExceptionNotHandled }
            else
              { exitCode := some (toInt32 EXCEPTION_BREAKPOINT),
                continueStatus := some ContinueType.dbgContinue }),
           d.dumpOnCrash) := by
  unfold OnException HandleCrashDump ExceptionTypeInvalidBreakPoint ExceptionTypeBreakPoint
  cases hsa : d.stopOnAssert <;> cases hdc : d.dumpOnCrash <;>
    cases dwFirstChance <;> simp [hsa, hdc]

/-- C2: on the script CREATE_PROCESS(100), CREATE_PROCESS(200),
EXIT_PROCESS(100, 7), EXIT_PROCESS(200, 9) — which contains no exception
events — `Debug` returns 7, and likewise on the script with the two exits
reversed; in both runs the process handle table is empty at termination. -/
theorem debug_rootExit_scenarios :
    Debug DefaultDebuggerConfig InitialDebuggerState RootExitFirstScript
        = .ok (some (7, ⟨∅, ∅, some 100⟩))
    ∧ Debug DefaultDebuggerConfig InitialDebuggerState ChildExitFirstScript
        = .ok (some (7, ⟨∅, ∅, some 100⟩)) :=
  ⟨rfl, rfl⟩

/-- C10: `Debug` clears the process table, the thread table and the root
process id before processing any event, so its outcome is independent of the
state left by any earlier `Debug` call on the same object. -/
theorem debug_resets_state (d : Debugger) (st1 st2 : DebuggerState)
    (events : List DEBUG_EVENT) :
    Debug d st1 events = Debug d st2 events
    ∧ Debug d st1 events = DebugLoop d events InitialDebuggerState none :=
  ⟨rfl, rfl⟩

/-- Counterexample to C3 as stated: a swallowed `InvalidBreakPoint` on the
root process latches the OS breakpoint code before the root's
`EXIT_PROCESS(7)`, so the loop returns the breakpoint code, not the root's
exit-event code 7. -/
theorem debug_rootExitCode_cex :
    Debug DefaultDebuggerConfig InitialDebuggerState BreakPointBeforeExitScript
        = .ok (some (toInt32 EXCEPTION_BREAKPOINT, ⟨∅, ∅, some 100⟩))
    ∧ toInt32 EXCEPTION_BREAKPOINT ≠ (7 : Int) :=
  ⟨rfl, by decide⟩

end CppCoverage

namespace CppCoverage

/-! ## Root-process-id stability -/

theorem handleDebugEvent_root_some {d : Debugger} {st : DebuggerState} {e : DEBUG_EVENT}
    {ps : ProcessStatus} {dumped : Bool} {st1 : DebuggerState} {r : Nat}
    (h : HandleDebugEvent d st e = .ok (ps, dumped, st1))
    (hr : st.rootProcessId = some r) : st1.rootProcessId = some r := by
  obtain ⟨pid, tid, info⟩ := e
  cases info with
  | createProcess =>
    obtain ⟨_, _, _, _, _, h3⟩ := handleDebugEvent_createProcess h
    rw [h3, if_neg (by rw [hr]; simp), hr]
  | createThread =>
    obtain ⟨_, _, h1⟩ := handleDebugEvent_createThread h
    rw [h1]
    exact hr
  | exitProcess dwExitCode =>
    obtain ⟨_, _, _, _, _, h3⟩ := handleDebugEvent_exitProcess h
    rw [h3]
    exact hr
  | exitThread =>
    obtain ⟨_, _, _, h1⟩ := handleDebugEvent_exitThread h
    rw [h1]
    exact hr
  | exception dwFirstChance exceptionCode exceptionType =>
    obtain ⟨_, _, h1, _⟩ := handleDebugEvent_exception h
    rw [h1]
    exact hr
  | loadDll =>
    obtain ⟨_, _, _, h1⟩ := handleDebugEvent_passive (Or.inl rfl) h
    rw [h1]
    exact hr
  | unloadDll =>
    obtain ⟨_, _, _, h1⟩ := handleDebugEvent_passive (Or.inr (Or.inl rfl)) h
    rw [h1]
    exact hr
  | rip =>
    obtain ⟨_, _, _, h1⟩ := handleDebugEvent_passive (Or.inr (Or.inr (Or.inl rfl))) h
    rw [h1]
    exact hr
  | other code =>
    obtain ⟨_, _, _, h1⟩ := handleDebugEvent_passive (Or.inr (Or.inr (Or.inr ⟨code, rfl⟩))) h
    rw [h1]
    exact hr

theorem debugLoop_root_some (d : Debugger) :
    ∀ (events : List DEBUG_EVENT) (st : DebuggerState) (exitCode : Option Int)
      (code : Int) (stF : DebuggerState) (r : Nat),
      st.rootProcessId = some r →
      DebugLoop d events st exitCode = .ok (some (code, stF)) →
      stF.rootProcessId = some r := by
  intro events
  induction events with
  | nil =>
    intro st exitCode code stF r hr h
    cases exitCode with
    | some c =>
      simp only [DebugLoop] at h
      split_ifs at h with hpe
      · simp only [Except.ok.injEq, Option.some.injEq, Prod.mk.injEq] at h
        rw [← h.2]
        exact hr
      · simp at h
    | none => simp [DebugLoop] at h
  | cons e rest ih =>
    intro st exitCode code stF r hr h
    cases exitCode with
    | some c =>
      simp only [DebugLoop] at h
      split_ifs at h with hpe
      · simp only [Except.ok.injEq, Option.some.injEq, Prod.mk.injEq] at h
        rw [← h.2]
        exact hr
      · cases hde : HandleDebugEvent d st e with
        | error err => rw [hde] at h; simp at h
        | ok res =>
          obtain ⟨ps, dumped, st1⟩ := res
          rw [hde] at h
          dsimp only at h
          exact ih st1 _ code stF r (handleDebugEvent_root_some hde hr) h
    | none =>
      simp only [DebugLoop] at h
      cases hde : HandleDebugEvent d st e with
      | error err => rw [hde] at h; simp at h
      | ok res =>
        obtain ⟨ps, dumped, st1⟩ := res
        rw [hde] at h
        dsimp only at h
        exact ih st1 _ code stF r (handleDebugEvent_root_some hde hr) h

theorem debugLoop_first_createProcess (d : Debugger) :
    ∀ (events : List DEBUG_EVENT) (st : DebuggerState) (code : Int)
      (stF : DebuggerState) (eR : DEBUG_EVENT),
      st.rootProcessId = none → st.processHandles = ∅ →
      DebugLoop d events st none = .ok (some (code, stF)) →
      events.find? (fun e => e.info.isCreateProcessCode) = some eR →
      stF.rootProcessId = some eR.dwProcessId := by
  intro events
  induction events with
  | nil =>
    intro st code stF eR hroot hP h hfind
    simp [DebugLoop] at h
  | cons e rest ih =>
    intro st code stF eR hroot hP h hfind
    simp only [DebugLoop] at h
    cases hde : HandleDebugEvent d st e with
    | error err => rw [hde] at h; simp at h
    | ok res =>
      obtain ⟨ps, dumped, st1⟩ := res
      rw [hde] at h
      dsimp only at h
      obtain ⟨pid, tid, info⟩ := e
      cases info with
      | createProcess =>
        rw [List.find?_cons_of_pos _ (by rfl)] at hfind
        simp only [Option.some.injEq] at hfind
        obtain ⟨_, _, _, _, _, hroot1⟩ := handleDebugEvent_createProcess hde
        have hr1 : st1.rootProcessId = some pid := by
          rw [hroot1, if_pos ⟨hroot, hP⟩]
        rw [← hfind]
        exact debugLoop_root_some d rest st1 _ code stF pid hr1 h
      | createThread =>
        obtain ⟨hps, ht, hst1⟩ := handleDebugEvent_createThread hde
        have hlatch : LatchExitCode st1 ⟨pid, tid, DebugEventInfo.createThread⟩ ps none
            = none := by
          rw [hps]
          simp [LatchExitCode]
        rw [hlatch] at h
        refine ih st1 code stF eR ?_ ?_ h ?_
        · rw [hst1]
          exact hroot
        · rw [hst1]
          exact hP
        · rwa [List.find?_cons_of_neg _ (by simp [DebugEventInfo.isCreateProcessCode])]
            at hfind
      | exitProcess dwExitCode =>
        obtain ⟨_, hp, _⟩ := handleDebugEvent_exitProcess hde
        rw [hP] at hp
        exact absurd hp (Finset.not_mem_empty _)
      | exitThread =>
        obtain ⟨_, hp, _⟩ := handleDebugEvent_exitThread hde
        rw [hP] at hp
        exact absurd hp (Finset.not_mem_empty _)
      | exception dwFirstChance exceptionCode exceptionType =>
        obtain ⟨hp, _, _, _⟩ := handleDebugEvent_exception hde
        rw [hP] at hp
        exact absurd hp (Finset.not_mem_empty _)
      | loadDll =>
        obtain ⟨_, hp, _, _⟩ := handleDebugEvent_passive (Or.inl rfl) hde
        rw [hP] at hp
        exact absurd hp (Finset.not_mem_empty _)
      | unloadDll =>
        obtain ⟨_, hp, _, _⟩ := handleDebugEvent_passive (Or.inr (Or.inl rfl)) hde
        rw [hP] at hp
        exact absurd hp (Finset.not_mem_empty _)
      | rip =>
        obtain ⟨_, hp, _, _⟩ := handleDebugEvent_passive (Or.inr (Or.inr (Or.inl rfl))) hde
        rw [hP] at hp
        exact absurd hp (Finset.not_mem_empty _)
      | other code2 =>
        obtain ⟨_, hp, _, _⟩ :=
          handleDebugEvent_passive (Or.inr (Or.inr (Or.inr ⟨code2, rfl⟩))) hde
        rw [hP] at hp
        exact absurd hp (Finset.not_mem_empty _)

/-- C8: in a `Debug` run that terminates normally, the root process id is the
process id of the first `CREATE_PROCESS` event of the script and is never
changed afterwards: the final state still carries exactly that id. -/
theorem debug_root_is_first_createProcess (d : Debugger) (st0 : DebuggerState)
    (events : List DEBUG_EVENT) (code : Int) (stF : DebuggerState) (eR : DEBUG_EVENT)
    (h : Debug d st0 events = .ok (some (code, stF)))
    (hfind : events.find? (fun e => e.info.isCreateProcessCode) = some eR) :
    stF.rootProcessId = some eR.dwProcessId := by
  unfold Debug at h
  exact debugLoop_first_createProcess d events _ code stF eR rfl rfl h hfind

/-- Witness for C8 on the concrete CREATE/CREATE/EXIT/EXIT script: its first
`CREATE_PROCESS` carries pid 100 and the final state's root is 100. -/
theorem debug_root_is_first_createProcess_witness :
    (DebuggerState.mk ∅ ∅ (some 100)).rootProcessId = some 100 :=
  debug_root_is_first_createProcess DefaultDebuggerConfig InitialDebuggerState
    RootExitFirstScript 7 ⟨∅, ∅, some 100⟩ ⟨100, 1, DebugEventInfo.createProcess⟩
    rfl rfl

end CppCoverage

namespace CppCoverage

/-! ## Provenance of the latched exit code -/

theorem debugLoop_exit_source_step (d : Debugger) {e : DEBUG_EVENT}
    {rest : List DEBUG_EVENT} {st st1 : DebuggerState} {ps : ProcessStatus}
    {dumped : Bool} {exitCode : Option Int} {code : Int} {stF : DebuggerState}
    (hde : HandleDebugEvent d st e = .ok (ps, dumped, st1))
    (hlatE : ExceptionLatchesCode d e = false)
    (h : DebugLoop d rest st1 (LatchExitCode st1 e ps exitCode) = .ok (some (code, stF)))
    (ihres : LatchExitCode st1 e ps exitCode = some code
      ∨ ∃ x ∈ rest, (∃ raw, x.info = DebugEventInfo.exitProcess raw ∧ code = toInt32 raw)
          ∧ stF.rootProcessId = some x.dwProcessId) :
    exitCode = some code
      ∨ ∃ x ∈ e :: rest, (∃ raw, x.info = DebugEventInfo.exitProcess raw
          ∧ code = toInt32 raw) ∧ stF.rootProcessId = some x.dwProcessId := by
  rcases ihres with hL | ⟨x, hx, hx2⟩
  case inr => exact Or.inr ⟨x, List.mem_cons_of_mem _ hx, hx2⟩
  by_cases hcond : ps.exitCode ≠ none ∧ st1.rootProcessId = some e.dwProcessId
      ∧ exitCode = none
  · unfold LatchExitCode at hL
    rw [if_pos hcond] at hL
    have hrootF : stF.rootProcessId = some e.dwProcessId :=
      debugLoop_root_some d rest st1 _ code stF e.dwProcessId hcond.2.1 h
    obtain ⟨pid, tid, info⟩ := e
    cases info with
    | exitProcess raw =>
      obtain ⟨hps, _⟩ := handleDebugEvent_exitProcess hde
      rw [hps] at hL
      simp only [Option.some.injEq] at hL
      exact Or.inr ⟨⟨pid, tid, DebugEventInfo.exitProcess raw⟩, List.mem_cons_self _ _,
        ⟨raw, rfl, hL.symm⟩, hrootF⟩
    | exception dwFirstChance exceptionCode exceptionType =>
      obtain ⟨_, _, _, hex⟩ := handleDebugEvent_exception hde
      rcases onException_ok_exitCode hex with hnone | ⟨h1, hsa⟩ | ⟨h4, hcpp⟩
      · exact absurd hnone hcond.1
      · exfalso
        simp [ExceptionLatchesCode, h1, hsa] at hlatE
      · exfalso
        simp [ExceptionLatchesCode, h4, hcpp] at hlatE
    | createProcess =>
      obtain ⟨hps, _⟩ := handleDebugEvent_createProcess hde
      rw [hps] at hcond
      exact absurd rfl hcond.1
    | createThread =>
      obtain ⟨hps, _⟩ := handleDebugEvent_createThread hde
      rw [hps] at hcond
      exact absurd rfl hcond.1
    | exitThread =>
      obtain ⟨hps, _⟩ := handleDebugEvent_exitThread hde
      rw [hps] at hcond
      exact absurd rfl hcond.1
    | loadDll =>
      obtain ⟨hps, _⟩ := handleDebugEvent_passive (Or.inl rfl) hde
      rw [hps] at hcond
      exact absurd rfl hcond.1
    | unloadDll =>
      obtain ⟨hps, _⟩ := handleDebugEvent_passive (Or.inr (Or.inl rfl)) hde
      rw [hps] at hcond
      exact absurd rfl hcond.1
    | rip =>
      obtain ⟨hps, _⟩ := handleDebugEvent_passive (Or.inr (Or.inr (Or.inl rfl))) hde
      rw [hps] at hcond
      exact absurd rfl hcond.1
    | other code2 =>
      obtain ⟨hps, _⟩ :=
        handleDebugEvent_passive (Or.inr (Or.inr (Or.inr ⟨code2, rfl⟩))) hde
      rw [hps] at hcond
      exact absurd rfl hcond.1
  · unfold LatchExitCode at hL
    rw [if_neg hcond] at hL
    exact Or.inl hL

theorem debugLoop_exit_source (d : Debugger) :
    ∀ (events : List DEBUG_EVENT) (st : DebuggerState) (exitCode : Option Int)
      (code : Int) (stF : DebuggerState),
      (∀ e ∈ events, ExceptionLatchesCode d e = false) →
      DebugLoop d events st exitCode = .ok (some (code, stF)) →
      exitCode = some code
        ∨ ∃ e ∈ events, (∃ raw, e.info = DebugEventInfo.exitProcess raw
            ∧ code = toInt32 raw) ∧ stF.rootProcessId = some e.dwProcessId := by
  intro events
  induction events with
  | nil =>
    intro st exitCode code stF hlat h
    cases exitCode with
    | some c =>
      simp only [DebugLoop] at h
      split_ifs at h with hpe
      · left
        simp only [Except.ok.injEq, Option.some.injEq, Prod.mk.injEq] at h
        rw [h.1]
      · simp at h
    | none => simp [DebugLoop] at h
  | cons e rest ih =>
    intro st exitCode code stF hlat h
    have hlatrest : ∀ x ∈ rest, ExceptionLatchesCode d x = false := fun x hx =>
      hlat x (List.mem_cons_of_mem _ hx)
    have hlatE : ExceptionLatchesCode d e = false := hlat e (List.mem_cons_self _ _)
    cases exitCode with
    | some c =>
      simp only [DebugLoop] at h
      split_ifs at h with hpe
      · left
        simp only [Except.ok.injEq, Option.some.injEq, Prod.mk.injEq] at h
        rw [h.1]
      · cases hde : HandleDebugEvent d st e with
        | error err => rw [hde] at h; simp at h
        | ok res =>
          obtain ⟨ps, dumped, st1⟩ := res
          rw [hde] at h
          dsimp only at h
          exact debugLoop_exit_source_step d hde hlatE h
            (ih st1 _ code stF hlatrest h)
    | none =>
      simp only [DebugLoop] at h
      cases hde : HandleDebugEvent d st e with
      | error err => rw [hde] at h; simp at h
      | ok res =>
        obtain ⟨ps, dumped, st1⟩ := res
        rw [hde] at h
        dsimp only at h
        exact debugLoop_exit_source_step d hde hlatE h
          (ih st1 _ code stF hlatrest h)

/-- C3 (amended): in every terminating `Debug` run whose script contains no
exception event that yields an exit-code-carrying status under the given
flags (no `InvalidBreakPoint` with `stopOnAssert` off and no `CppError` with
`continueAfterCppException` on), the returned exit code is the `dwExitCode`
of an `EXIT_PROCESS` event of the root process, however many descendant
processes exit afterwards. -/
theorem debug_returns_root_exit_event_code (d : Debugger) (st0 : DebuggerState)
    (events : List DEBUG_EVENT) (code : Int) (stF : DebuggerState)
    (hlat : ∀ e ∈ events, ExceptionLatchesCode d e = false)
    (h : Debug d st0 events = .ok (some (code, stF))) :
    ∃ e ∈ events, (∃ raw, e.info = DebugEventInfo.exitProcess raw ∧ code = toInt32 raw)
      ∧ stF.rootProcessId = some e.dwProcessId := by
  unfold Debug at h
  rcases debugLoop_exit_source d events _ none code stF hlat h with hL | hEx
  · exact absurd hL (by simp)
  · exact hEx

/-- Witness for C3 (amended) on the minimal one-process script: the returned
code 7 is that of the root's `EXIT_PROCESS` event. -/
theorem debug_returns_root_exit_event_code_witness :
    ∃ e ∈ SingleProcessScript,
      (∃ raw, e.info = DebugEventInfo.exitProcess raw ∧ (7 : Int) = toInt32 raw)
        ∧ (DebuggerState.mk ∅ ∅ (some 100)).rootProcessId = some e.dwProcessId :=
  debug_returns_root_exit_event_code DefaultDebuggerConfig InitialDebuggerState
    SingleProcessScript 7 ⟨∅, ∅, some 100⟩ (by decide) rfl

end CppCoverage

namespace CppCoverage

/-! ## Handle-table contents as creation/removal counts -/

theorem ind_insert (s : Finset Nat) (p id : Nat) (hp : p ∉ s) :
    (if id ∈ insert p s then 1 else 0)
      = (if id ∈ s then 1 else 0) + (if p = id then 1 else 0) := by
  by_cases hid : p = id
  · subst hid
    simp [Finset.mem_insert_self, hp]
  · have hiff : (id ∈ insert p s) ↔ (id ∈ s) := by
      rw [Finset.mem_insert]
      constructor
      · rintro (h | h)
        · exact absurd h.symm hid
        · exact h
      · exact Or.inr
    rw [if_congr hiff rfl rfl, if_neg hid, add_zero]

theorem ind_erase (s : Finset Nat) (p id : Nat) (hp : p ∈ s) :
    (if id ∈ s then 1 else 0)
      = (if id ∈ s.erase p then 1 else 0) + (if p = id then 1 else 0) := by
  by_cases hid : p = id
  · subst hid
    simp [hp, Finset.not_mem_erase]
  · have hiff : (id ∈ s.erase p) ↔ (id ∈ s) := by
      rw [Finset.mem_erase]
      constructor
      · exact And.right
      · exact fun h => ⟨fun hc => hid hc.symm, h⟩
    rw [if_congr hiff.symm rfl rfl, if_neg hid, add_zero]

theorem handleEvents_table_counts (d : Debugger) :
    ∀ (events : List DEBUG_EVENT) (st stF : DebuggerState),
      HandleEvents d events st = .ok stF →
      ∀ id : Nat,
        ((if id ∈ stF.processHandles then 1 else 0) + processExitCount events id
            = (if id ∈ st.processHandles then 1 else 0) + processCreateCount events id)
        ∧ ((if id ∈ stF.threadHandles then 1 else 0) + threadRemoveCount events id
            = (if id ∈ st.threadHandles then 1 else 0) + threadCreateCount events id) := by
  intro events
  induction events with
  | nil =>
    intro st stF h id
    simp only [HandleEvents, Except.ok.injEq] at h
    subst h
    simp [processExitCount, processCreateCount, threadRemoveCount, threadCreateCount]
  | cons e rest ih =>
    intro st stF h id
    simp only [HandleEvents] at h
    cases hde : HandleDebugEvent d st e with
    | error err => rw [hde] at h; simp at h
    | ok res =>
      obtain ⟨ps, dumped, st1⟩ := res
      rw [hde] at h
      dsimp only at h
      obtain ⟨ihp, iht⟩ := ih st1 stF h id
      obtain ⟨pid, tid, info⟩ := e
      simp only [processExitCount, processCreateCount, threadRemoveCount,
        threadCreateCount] at ihp iht ⊢
      cases info with
      | createProcess =>
        obtain ⟨_, hp, ht, hP1, hT1, _⟩ := handleDebugEvent_createProcess hde
        rw [hP1, ind_insert _ pid id hp] at ihp
        rw [hT1, ind_insert _ tid id ht] at iht
        constructor <;>
          · simp [List.countP_cons, DebugEventInfo.isCreateProcessCode,
              DebugEventInfo.isCreateThreadCode, DebugEventInfo.isExitProcessCode,
              DebugEventInfo.isExitThreadCode] at ihp iht ⊢
            omega
      | createThread =>
        obtain ⟨_, ht, hst1⟩ := handleDebugEvent_createThread hde
        subst hst1
        dsimp only at ihp iht
        rw [ind_insert _ tid id ht] at iht
        constructor <;>
          · simp [List.countP_cons, DebugEventInfo.isCreateProcessCode,
              DebugEventInfo.isCreateThreadCode, DebugEventInfo.isExitProcessCode,
              DebugEventInfo.isExitThreadCode] at ihp iht ⊢
            omega
      | exitProcess dwExitCode =>
        obtain ⟨_, hp, ht, hP1, hT1, _⟩ := handleDebugEvent_exitProcess hde
        rw [hP1] at ihp
        rw [hT1] at iht
        have e1 := ind_erase st.processHandles pid id hp
        have e2 := ind_erase st.threadHandles tid id ht
        constructor <;>
          · simp [List.countP_cons, DebugEventInfo.isCreateProcessCode,
              DebugEventInfo.isCreateThreadCode, DebugEventInfo.isExitProcessCode,
              DebugEventInfo.isExitThreadCode] at ihp iht e1 e2 ⊢
            omega
      | exitThread =>
        obtain ⟨_, hp, ht, hst1⟩ := handleDebugEvent_exitThread hde
        subst hst1
        dsimp only at ihp iht
        have e2 := ind_erase st.threadHandles tid id ht
        constructor <;>
          · simp [List.countP_cons, DebugEventInfo.isCreateProcessCode,
              DebugEventInfo.isCreateThreadCode, DebugEventInfo.isExitProcessCode,
              DebugEventInfo.isExitThreadCode] at ihp iht e2 ⊢
            omega
      | exception dwFirstChance exceptionCode exceptionType =>
        obtain ⟨_, _, hst1, _⟩ := handleDebugEvent_exception hde
        subst hst1
        constructor <;>
          · simp [List.countP_cons, DebugEventInfo.isCreateProcessCode,
              DebugEventInfo.isCreateThreadCode, DebugEventInfo.isExitProcessCode,
              DebugEventInfo.isExitThreadCode] at ihp iht ⊢
            omega
      | loadDll =>
        obtain ⟨_, _, _, hst1⟩ := handleDebugEvent_passive (Or.inl rfl) hde
        subst hst1
        constructor <;>
          · simp [List.countP_cons, DebugEventInfo.isCreateProcessCode,
              DebugEventInfo.isCreateThreadCode, DebugEventInfo.isExitProcessCode,
              DebugEventInfo.isExitThreadCode] at ihp iht ⊢
            omega
      | unloadDll =>
        obtain ⟨_, _, _, hst1⟩ := handleDebugEvent_passive (Or.inr (Or.inl rfl)) hde
        subst hst1
        constructor <;>
          · simp [List.countP_cons, DebugEventInfo.isCreateProcessCode,
              DebugEventInfo.isCreateThreadCode, DebugEventInfo.isExitProcessCode,
              DebugEventInfo.isExitThreadCode] at ihp iht ⊢
            omega
      | rip =>
        obtain ⟨_, _, _, hst1⟩ := handleDebugEvent_passive (Or.inr (Or.inr (Or.inl rfl))) hde
        subst hst1
        constructor <;>
          · simp [List.countP_cons, DebugEventInfo.isCreateProcessCode,
              DebugEventInfo.isCreateThreadCode, DebugEventInfo.isExitProcessCode,
              DebugEventInfo.isExitThreadCode] at ihp iht ⊢
            omega
      | other code2 =>
        obtain ⟨_, _, _, hst1⟩ :=
          handleDebugEvent_passive (Or.inr (Or.inr (Or.inr ⟨code2, rfl⟩))) hde
        subst hst1
        constructor <;>
          · simp [List.countP_cons, DebugEventInfo.isCreateProcessCode,
              DebugEventInfo.isCreateThreadCode, DebugEventInfo.isExitProcessCode,
              DebugEventInfo.isExitThreadCode] at ihp iht ⊢
            omega

/-- C4 (amended): after an error-free handling of an event list from the reset
state, the process table contains exactly those ids whose `CREATE_PROCESS`
count exceeds their `EXIT_PROCESS` count by one, and the thread table exactly
those ids whose creations (`CREATE_THREAD` plus synthetic initial threads)
exceed their removals (`EXIT_THREAD` plus synthetic exit-thread removals) by
one; when no id is reused this is "created but not yet exited". -/
theorem handleEvents_tables_exact (d : Debugger) (events : List DEBUG_EVENT)
    (stF : DebuggerState) (h : HandleEvents d events InitialDebuggerState = .ok stF)
    (id : Nat) :
    (id ∈ stF.processHandles
        ↔ processCreateCount events id = processExitCount events id + 1)
    ∧ (id ∈ stF.threadHandles
        ↔ threadCreateCount events id = threadRemoveCount events id + 1) := by
  obtain ⟨hp, ht⟩ := handleEvents_table_counts d events InitialDebuggerState stF h id
  simp only [InitialDebuggerState, Finset.not_mem_empty, if_false] at hp ht
  constructor
  · constructor
    · intro hm
      rw [if_pos hm] at hp
      omega
    · intro hc
      by_cases hm : id ∈ stF.processHandles
      · exact hm
      · rw [if_neg hm] at hp
        omega
  · constructor
    · intro hm
      rw [if_pos hm] at ht
      omega
    · intro hc
      by_cases hm : id ∈ stF.threadHandles
      · exact hm
      · rw [if_neg hm] at ht
        omega

/-- Witness for C4 (amended) on the minimal one-process script. -/
theorem handleEvents_tables_exact_witness :
    ((100 : Nat) ∈ (DebuggerState.mk ∅ ∅ (some 100)).processHandles
        ↔ processCreateCount SingleProcessScript 100
            = processExitCount SingleProcessScript 100 + 1)
    ∧ ((100 : Nat) ∈ (DebuggerState.mk ∅ ∅ (some 100)).threadHandles
        ↔ threadCreateCount SingleProcessScript 100
            = threadRemoveCount SingleProcessScript 100 + 1) :=
  handleEvents_tables_exact DefaultDebuggerConfig SingleProcessScript
    ⟨∅, ∅, some 100⟩ rfl 100

/-- Counterexample to C4 as stated: after CREATE_PROCESS(100),
EXIT_PROCESS(100), CREATE_PROCESS(100 again), pid 100 has both a seen
`CREATE_PROCESS` and a seen `EXIT_PROCESS`, yet it is in the process table. -/
theorem processTable_seen_claim_cex :
    HandleEvents DefaultDebuggerConfig ReusedPidScript InitialDebuggerState
        = .ok ⟨{100}, {2}, some 100⟩
    ∧ ¬ (((100 : Nat) ∈ (DebuggerState.mk {100} {2} (some 100)).processHandles)
          ↔ (seenCreateProcess ReusedPidScript 100 = true
              ∧ seenExitProcess ReusedPidScript 100 = false)) :=
  ⟨rfl, by decide⟩

end CppCoverage
